import Mathlib

/-!
Shallow embedding of the discovery-client and SDK-context layers of the
nats-micro repository (`src/nats_contrib/micro/client/client.py` and
`src/nats_contrib/micro/sdk/sdk.py`), together with models of the pieces
those modules import from files absent from the source tree
(`internal.get_internal_subject`, the descriptor models, and the
request-many executor/iterator), which are modelled from the spec where
noted.  Times and timeouts are modelled as rationals (`ℚ`); every float
literal appearing in the source (`0.5`, `1`) is exactly representable.
-/

namespace NatsMicro

/-- Decoded JSON values: the result of `json.loads` on a reply payload. -/
inductive JVal where
  | null : JVal
  | bool (b : Bool) : JVal
  | num (n : Int) : JVal
  | str (s : String) : JVal
  | arr (xs : List JVal) : JVal
  | obj (fields : List (String × JVal)) : JVal

/-- Reply payload as seen by the client: `empty` models the zero-length
payload `b""`, `json j` models bytes that decode to the JSON value `j`,
and `invalid` models non-empty bytes that are not valid JSON.
`json.loads` raises on both `empty` and `invalid`. -/
inductive Payload where
  | empty : Payload
  | json (j : JVal) : Payload
  | invalid : Payload

/-- A bus message as delivered to the client (`nats.aio.msg.Msg`): subject,
reply subject, decoded payload, and optional headers. -/
structure Msg where
  subject : String
  reply : String
  payload : Payload
  headers : Option (List (String × String))

/-- Python `dict.get(key)` on a headers mapping: first binding wins. -/
def dictGet (hs : List (String × String)) (key : String) : Option String :=
  match hs with
  | [] => none
  | (k, v) :: rest => if k = key then some v else dictGet rest key

/-- Python `dict.get(key, default)`. -/
def dictGetD (hs : List (String × String)) (key : String) (dflt : String) : String :=
  (dictGet hs key).getD dflt

/-- Value of a header on a message, `none` when the headers mapping is
absent or the key is missing (`msg.headers.get(key)` behind a `None` check). -/
def Msg.header (m : Msg) (key : String) : Option String :=
  match m.headers with
  | none => none
  | some hs => dictGet hs key

/-- Predicate on characters accepted inside a Python integer literal body. -/
def pyIntChar (ch : Char) : Bool :=
  ch.isDigit || ch == '_'

/-- Python 3 rejects two consecutive underscores inside an integer literal. -/
def noDoubleUnderscore : List Char → Bool
  | [] => true
  | [_] => true
  | a :: b :: rest => !(a == '_' && b == '_') && noDoubleUnderscore (b :: rest)

/-- Digit-sequence validity for Python `int(...)` after sign removal:
non-empty, starts and ends with a digit, only digits and single
underscores in between. -/
def pyIntBody (l : List Char) : Bool :=
  match l with
  | [] => false
  | first :: rest =>
    first.isDigit
      && (((first :: rest).getLast?).getD '_').isDigit
      && (first :: rest).all pyIntChar
      && noDoubleUnderscore (first :: rest)

/-- Numeric value of a digit/underscore sequence (underscores skipped). -/
def digitsVal (l : List Char) : Nat :=
  l.foldl (fun acc ch => if ch.isDigit then acc * 10 + (ch.toNat - 48) else acc) 0

/-- ASCII whitespace stripped by Python `int(...)`. -/
def isPySpace (ch : Char) : Bool :=
  ch == ' ' || ch == '\t' || ch == '\n' || ch == '\r' || ch == '\x0b' || ch == '\x0c'

/-- Strip of leading and trailing whitespace from a character list. -/
def pyStrip (l : List Char) : List Char :=
  ((l.dropWhile isPySpace).reverse.dropWhile isPySpace).reverse

/-- Model of Python `int(s)` on a string: strip surrounding whitespace,
allow one optional sign, then a digit sequence with single interior
underscores; `none` models the `ValueError` raised otherwise. -/
def pyInt (s : String) : Option Int :=
  match pyStrip s.toList with
  | [] => none
  | '+' :: rest => if pyIntBody rest then some (Int.ofNat (digitsVal rest)) else none
  | '-' :: rest => if pyIntBody rest then some (-(Int.ofNat (digitsVal rest))) else none
  | l => if pyIntBody l then some (Int.ofNat (digitsVal l)) else none

/-- Failure modes surfaced by the client layer (§7 of the spec plus the
Python-level `ValueError` from `int(...)`). -/
inductive MicroError where
  | serviceError (code : Int) (description : String) : MicroError
  | valueError : MicroError
  | jsonError : MicroError
  | protocolError : MicroError
  | invalidArgument : MicroError
deriving DecidableEq

/-- Control-plane verbs (`internal.ServiceVerb`). -/
inductive ServiceVerb where
  | ping | info | stats
deriving DecidableEq

/-- Uppercase wire token of a verb. -/
def ServiceVerb.token : ServiceVerb → String
  | .ping => "PING"
  | .info => "INFO"
  | .stats => "STATS"

/-- Default control-plane subject root (`api.API_PREFIX`, spec §6). -/
def apiPrefixDefault : String := "$SRV"

/-- Modelled from the spec: `internal.get_internal_subject` lives in
`internal.py`, absent from the source tree.  Spec §4.A: `pfx.verb` when
neither service nor id is given, `pfx.verb.<service>` when only the
service is given, `pfx.verb.<service>.<id>` when both are, and an
*InvalidArgument* failure for an id without a service. -/
def get_internal_subject (verb : ServiceVerb) (service : Option String)
    (id : Option String) (pfx : String) : Except MicroError String :=
  match service, id with
  | none, none => .ok (pfx ++ "." ++ verb.token)
  | some s, none => .ok (pfx ++ "." ++ verb.token ++ "." ++ s)
  | some s, some i => .ok (pfx ++ "." ++ verb.token ++ "." ++ s ++ "." ++ i)
  | none, some _ => .error .invalidArgument

/-- Fail-fast map over a list, modelling a Python list comprehension whose
element expression may raise: the first failure propagates, otherwise the
results are collected in order. -/
def exceptMap (f : α → Except MicroError β) : List α → Except MicroError (List β)
  | [] => .ok []
  | x :: rest =>
    match f x with
    | .error e => .error e
    | .ok y =>
      match exceptMap f rest with
      | .error e => .error e
      | .ok ys => .ok (y :: ys)

/-- Success test on an `Except` result. -/
def exceptOk : Except MicroError α → Bool
  | .ok _ => true
  | .error _ => false

/-- Service-error test on a failure mode. -/
def MicroError.isSvc : MicroError → Bool
  | .serviceError _ _ => true
  | _ => false

/-- Field lookup inside a JSON object body. -/
def fieldLookup : List (String × JVal) → String → Option JVal
  | [], _ => none
  | (k, v) :: rest, key => if k = key then some v else fieldLookup rest key

/-- Field of a JSON value, `none` when the value is not an object or the
field is absent. -/
def JVal.field (j : JVal) (key : String) : Option JVal :=
  match j with
  | .obj fields => fieldLookup fields key
  | _ => none

/-- String field of a JSON object, `none` when absent or not a string. -/
def JVal.strField (j : JVal) (key : String) : Option String :=
  match j.field key with
  | some (.str s) => some s
  | _ => none

/-- String field with a default used when the field is absent or not a
string. -/
def JVal.strFieldD (j : JVal) (key : String) (dflt : String) : String :=
  (j.strField key).getD dflt

/-- Integer field of a JSON object, `none` when absent or not a number. -/
def JVal.numField (j : JVal) (key : String) : Option Int :=
  match j.field key with
  | some (.num n) => some n
  | _ => none

/-- All-string check over the bindings of an object body. -/
def parseStrPairs : List (String × JVal) → Option (List (String × String))
  | [] => some []
  | (k, .str v) :: rest => (parseStrPairs rest).map (fun tl => (k, v) :: tl)
  | _ => none

/-- Interpretation of a JSON value as a string-to-string mapping. -/
def parseStrMap : JVal → Option (List (String × String))
  | .obj fields => parseStrPairs fields
  | _ => none

/-- Metadata field: absent means the empty mapping, present must be a
string-to-string object. -/
def JVal.metaField (j : JVal) (key : String) : Option (List (String × String)) :=
  match j.field key with
  | none => some []
  | some v => parseStrMap v

/-- Ping descriptor (`models.PingInfo`, spec §3). -/
structure PingInfo where
  type : String
  name : String
  id : String
  version : String
  metadata : List (String × String)
deriving DecidableEq

/-- Modelled from the spec: `PingInfo.from_response` lives in `models.py`,
absent from the source tree.  Spec §3/§6: required fields `name`, `id`,
`version`; unknown fields ignored; missing required fields fail with
*ProtocolError*; `type` and `metadata` are defaulted when absent. -/
def PingInfo.from_response (j : JVal) : Except MicroError PingInfo :=
  match j.strField "name", j.strField "id", j.strField "version",
      j.metaField "metadata" with
  | some n, some i, some v, some md =>
    .ok ⟨j.strFieldD "type" "", n, i, v, md⟩
  | _, _, _, _ => .error .protocolError

/-- Endpoint entry of an info descriptor (`models.EndpointInfo`). -/
structure EndpointInfo where
  name : String
  subject : String
  queue_group : String
  metadata : List (String × String)
deriving DecidableEq

/-- Modelled from the spec: endpoint entries of `ServiceInfo` require
`name`, `subject` and `queue_group` strings; `metadata` defaults to the
empty mapping. -/
def EndpointInfo.from_response (j : JVal) : Except MicroError EndpointInfo :=
  match j.strField "name", j.strField "subject", j.strField "queue_group",
      j.metaField "metadata" with
  | some n, some s, some q, some md => .ok ⟨n, s, q, md⟩
  | _, _, _, _ => .error .protocolError

/-- Info descriptor (`models.ServiceInfo`, spec §3). -/
structure ServiceInfo where
  type : String
  name : String
  id : String
  version : String
  description : String
  metadata : List (String × String)
  endpoints : List EndpointInfo
deriving DecidableEq

/-- Per-element parse of the `endpoints` array; absent means empty. -/
def parseEndpointList (j : JVal) (key : String) :
    Except MicroError (List EndpointInfo) :=
  match j.field key with
  | none => .ok []
  | some (.arr xs) => exceptMap EndpointInfo.from_response xs
  | some _ => .error .protocolError

/-- Modelled from the spec: `ServiceInfo.from_response` lives in
`models.py`, absent from the source tree.  Required fields `name`, `id`,
`version`; `description`, `type`, `metadata` and `endpoints` defaulted
when absent; a malformed `endpoints` entry fails with *ProtocolError*. -/
def ServiceInfo.from_response (j : JVal) : Except MicroError ServiceInfo :=
  match j.strField "name", j.strField "id", j.strField "version",
      j.metaField "metadata", parseEndpointList j "endpoints" with
  | some n, some i, some v, some md, .ok eps =>
    .ok ⟨j.strFieldD "type" "", n, i, v, j.strFieldD "description" "", md, eps⟩
  | _, _, _, _, _ => .error .protocolError

/-- Endpoint entry of a stats descriptor (`models.EndpointStats`). -/
structure EndpointStats where
  name : String
  subject : String
  queue_group : String
  num_requests : Int
  num_errors : Int
  last_error : String
  processing_time : Int
  average_processing_time : Int
  data : List (String × String)
deriving DecidableEq

/-- Modelled from the spec: endpoint entries of `ServiceStats` require
`name`, `subject`, `queue_group` and the four counters; `last_error` and
`data` are defaulted when absent. -/
def EndpointStats.from_response (j : JVal) : Except MicroError EndpointStats :=
  match j.strField "name", j.strField "subject", j.strField "queue_group",
      j.numField "num_requests", j.numField "num_errors",
      j.numField "processing_time", j.numField "average_processing_time",
      j.metaField "data" with
  | some n, some s, some q, some nr, some ne, some pt, some apt, some d =>
    .ok ⟨n, s, q, nr, ne, j.strFieldD "last_error" "", pt, apt, d⟩
  | _, _, _, _, _, _, _, _ => .error .protocolError

/-- Stats descriptor (`models.ServiceStats`, spec §3). -/
structure ServiceStats where
  type : String
  name : String
  id : String
  version : String
  metadata : List (String × String)
  started : String
  endpoints : List EndpointStats
deriving DecidableEq

/-- Per-element parse of the stats `endpoints` array; absent means empty. -/
def parseEndpointStatsList (j : JVal) (key : String) :
    Except MicroError (List EndpointStats) :=
  match j.field key with
  | none => .ok []
  | some (.arr xs) => exceptMap EndpointStats.from_response xs
  | some _ => .error .protocolError

/-- Modelled from the spec: `ServiceStats.from_response` lives in
`models.py`, absent from the source tree.  Required fields `name`, `id`,
`version`; `started`, `type`, `metadata` and `endpoints` defaulted when
absent; a malformed `endpoints` entry fails with *ProtocolError*. -/
def ServiceStats.from_response (j : JVal) : Except MicroError ServiceStats :=
  match j.strField "name", j.strField "id", j.strField "version",
      j.metaField "metadata", parseEndpointStatsList j "endpoints" with
  | some n, some i, some v, some md, .ok eps =>
    .ok ⟨j.strFieldD "type" "", n, i, v, md, j.strFieldD "started" "", eps⟩
  | _, _, _, _, _ => .error .protocolError

/-- Parse of one reply into a `PingInfo`:
`PingInfo.from_response(json.loads(res.data))`, where a payload that is
not valid JSON raises. -/
def pingDescriptor (m : Msg) : Except MicroError PingInfo :=
  match m.payload with
  | .json j => PingInfo.from_response j
  | _ => .error .jsonError

/-- Parse of one reply into a `ServiceInfo`. -/
def infoDescriptor (m : Msg) : Except MicroError ServiceInfo :=
  match m.payload with
  | .json j => ServiceInfo.from_response j
  | _ => .error .jsonError

/-- Parse of one reply into a `ServiceStats`. -/
def statsDescriptor (m : Msg) : Except MicroError ServiceStats :=
  match m.payload with
  | .json j => ServiceStats.from_response j
  | _ => .error .jsonError

/-- Bus interactions issued by a client operation: a single request with a
timeout (`nc.request`) or a request-many fan-out with its three optional
bounds (the request-many executor / iterator). -/
inductive BusCall where
  | single (subject : String) (timeout : ℚ) : BusCall
  | many (subject : String) (max_wait : Option ℚ) (max_count : Option Nat)
      (max_interval : Option ℚ) : BusCall
deriving DecidableEq

/-- Discovery client state (`Client.__init__`): the bus handle is left
implicit; the constructor stores `default_max_wait` (handed to the
`RequestManyExecutor`) and the api prefix. -/
structure Client where
  default_max_wait : ℚ
  apiPfx : String
deriving DecidableEq

/-- Default-argument construction `Client(nc)`:
`default_max_wait = 0.5`, `api_prefix = API_PREFIX`. -/
def Client.initDefault : Client :=
  ⟨1 / 2, apiPrefixDefault⟩

/-- Thin wrapper over the bus request primitive (`Client.request`),
applied to the reply message the bus returned: when the reply has headers
and a truthy (non-empty) `Nats-Service-Error-Code` value, raise
`ServiceError(int(code), headers.get("Nats-Service-Error", ""))`, where a
non-integer code value makes `int` raise `ValueError`; otherwise return
the reply unchanged. -/
def Client.request (m : Msg) : Except MicroError Msg :=
  match m.headers with
  | none => .ok m
  | some hs =>
    if hs = [] then .ok m
    else
      match dictGet hs "Nats-Service-Error-Code" with
      | none => .ok m
      | some code =>
        if code = "" then .ok m
        else
          match pyInt code with
          | some k => .error (.serviceError k (dictGetD hs "Nats-Service-Error" ""))
          | none => .error .valueError

/-- A reply available on the request-many inbox, stamped with its absolute
arrival time. -/
structure TimedMsg where
  arrival : ℚ
  msg : Msg

/-- No-responders sentinel (spec §4.H/§6): empty payload and header
`Status: 503`. -/
def isNoResponders (m : Msg) : Bool :=
  match m.payload, m.header "Status" with
  | .empty, some s => s = "503"
  | _, _ => false

/-- Wait bound for the next reply: the deadline, tightened by
`last_rx + max_interval` when an inter-arrival bound is set. -/
def rmBound (deadline : ℚ) (maxInterval : Option ℚ) (lastRx : ℚ) : ℚ :=
  match maxInterval with
  | none => deadline
  | some v => min deadline (lastRx + v)

/-- Count-stop test after appending: `len(results) >= max_count`. -/
def rmReached (len : Nat) (maxCount : Option Nat) : Bool :=
  match maxCount with
  | none => false
  | some k => k ≤ len

/-- Modelled from the spec: the eager request-many collection loop
(`RequestManyExecutor`, package absent from the source tree), following
the numbered algorithm of §4.H.  `lastRx` and `len` carry the running
state; replies whose arrival time exceeds the wait bound are never
received; the 503 sentinel terminates collection; after appending a reply
the count bound is checked. -/
def rmCollect (deadline : ℚ) (maxInterval : Option ℚ) (maxCount : Option Nat) :
    ℚ → Nat → List TimedMsg → List Msg
  | _, _, [] => []
  | lastRx, len, t :: rest =>
    if rmBound deadline maxInterval lastRx < t.arrival then []
    else if isNoResponders t.msg then []
    else if rmReached (len + 1) maxCount then [t.msg]
    else t.msg :: rmCollect deadline maxInterval maxCount t.arrival (len + 1) rest

/-- Modelled from the spec: the lazy request-many iterator
(`RequestManyIterator`, package absent from the source tree), sharing the
termination rules of §4.H: published subject, deadline, bounds, running
`lastRx` / yield count, pending timed replies, and a closed flag set once
the subscription is released. -/
structure RMIter where
  subject : String
  deadline : ℚ
  maxInterval : Option ℚ
  maxCount : Option Nat
  lastRx : ℚ
  yielded : Nat
  stream : List TimedMsg
  closed : Bool

/-- Continue-waiting test of the shared termination algorithm: the loop
waits for a further reply exactly when nothing was yielded yet or the
yield count is still below `max_count`. -/
def rmContinue (yielded : Nat) (maxCount : Option Nat) : Bool :=
  yielded == 0 ||
    (match maxCount with
     | none => true
     | some k => yielded < k)

/-- One step of the lazy iterator: `none` ends iteration (the subscription
is released); a yielded reply advances `lastRx`, the count and the pending
stream. -/
def RMIter.next (it : RMIter) : Option (Msg × RMIter) :=
  if it.closed then none
  else if !rmContinue it.yielded it.maxCount then none
  else
    match it.stream with
    | [] => none
    | t :: rest =>
      if rmBound it.deadline it.maxInterval it.lastRx < t.arrival then none
      else if isNoResponders t.msg then none
      else
        some (t.msg,
          ⟨it.subject, it.deadline, it.maxInterval, it.maxCount, t.arrival,
            it.yielded + 1, rest, false⟩)

/-- Drain of the lazy iterator: collect yielded replies until the iterator
ends, bounded by a fuel that the pending stream length always covers. -/
def rmDrain : Nat → RMIter → List Msg
  | 0, _ => []
  | fuel + 1, it =>
    match it.next with
    | none => []
    | some (m, it') => m :: rmDrain fuel it'

/-- Drain of a transformed lazy iterator (`transform(iter, parse)`): each
yielded reply is parsed in turn and a parse failure raises at that
point. -/
def rmDrainT (parse : Msg → Except MicroError α) : Nat → RMIter →
    Except MicroError (List α)
  | 0, _ => .ok []
  | fuel + 1, it =>
    match it.next with
    | none => .ok []
    | some (m, it') =>
      match parse m with
      | .error e => .error e
      | .ok x =>
        match rmDrainT parse fuel it' with
        | .error e => .error e
        | .ok xs => .ok (x :: xs)

/-- Modelled from the spec: default `max_wait` of the request-many
machinery (§4.H / §6: "max_wait default 0.5s"). -/
def rmDefaultMaxWait : ℚ := 1 / 2

/-- Run of the eager executor (`RequestManyExecutor.__call__`): absent
bounds resolve to the executor's construction-time default wait and to
unlimited count and interval; `start` is the send time of the request. -/
def executorRun (defaultMaxWait : ℚ) (start : ℚ) (maxWait : Option ℚ)
    (maxCount : Option Nat) (maxInterval : Option ℚ)
    (stream : List TimedMsg) : List Msg :=
  rmCollect (start + maxWait.getD defaultMaxWait) maxInterval maxCount start 0 stream

/-- Construction of the lazy iterator (`RequestManyIterator(...)`): absent
`max_wait` resolves to the package default, absent count and interval stay
unlimited. -/
def rmIterInit (subject : String) (start : ℚ) (maxWait : Option ℚ)
    (maxCount : Option Nat) (maxInterval : Option ℚ)
    (stream : List TimedMsg) : RMIter :=
  ⟨subject, start + maxWait.getD rmDefaultMaxWait, maxInterval, maxCount,
    start, 0, stream, false⟩

/-- Transformed lazy iterator as returned by the `*_iter` operations:
`transform(RequestManyIterator(...), parse)`. -/
structure TransIter (α : Type) where
  iter : RMIter
  parse : Msg → Except MicroError α

/-- Drain of a transformed iterator to exhaustion. -/
def TransIter.drain (t : TransIter α) (fuel : Nat) : Except MicroError (List α) :=
  rmDrainT t.parse fuel t.iter

/-- Model of `Client.ping`: compute the PING subject scoped by the optional service,
run one request-many through the executor, and parse every reply as a
`PingInfo` in arrival order.  The environment is given by the send time
and the timed replies available on the inbox; the returned call list
records the bus interaction. -/
def Client.ping (c : Client) (service : Option String) (maxWait : Option ℚ)
    (maxCount : Option Nat) (maxInterval : Option ℚ) (start : ℚ)
    (stream : List TimedMsg) : Except MicroError (List BusCall × List PingInfo) :=
  match get_internal_subject .ping service none c.apiPfx with
  | .error e => .error e
  | .ok subject =>
    match exceptMap pingDescriptor
        (executorRun c.default_max_wait start maxWait maxCount maxInterval stream) with
    | .error e => .error e
    | .ok infos => .ok ([.many subject maxWait maxCount maxInterval], infos)

/-- Model of `Client.info`: analogous to `Client.ping` with the INFO subject and
`ServiceInfo` descriptors. -/
def Client.info (c : Client) (service : Option String) (maxWait : Option ℚ)
    (maxCount : Option Nat) (maxInterval : Option ℚ) (start : ℚ)
    (stream : List TimedMsg) : Except MicroError (List BusCall × List ServiceInfo) :=
  match get_internal_subject .info service none c.apiPfx with
  | .error e => .error e
  | .ok subject =>
    match exceptMap infoDescriptor
        (executorRun c.default_max_wait start maxWait maxCount maxInterval stream) with
    | .error e => .error e
    | .ok infos => .ok ([.many subject maxWait maxCount maxInterval], infos)

/-- Model of `Client.stats`: analogous to `Client.ping` with the STATS subject and
`ServiceStats` descriptors. -/
def Client.stats (c : Client) (service : Option String) (maxWait : Option ℚ)
    (maxCount : Option Nat) (maxInterval : Option ℚ) (start : ℚ)
    (stream : List TimedMsg) : Except MicroError (List BusCall × List ServiceStats) :=
  match get_internal_subject .stats service none c.apiPfx with
  | .error e => .error e
  | .ok subject =>
    match exceptMap statsDescriptor
        (executorRun c.default_max_wait start maxWait maxCount maxInterval stream) with
    | .error e => .error e
    | .ok infos => .ok ([.many subject maxWait maxCount maxInterval], infos)

/-- Model of `Client.ping_iter`: build a lazy request-many iterator on the scoped
PING subject and wrap it with the per-reply `PingInfo` parse. -/
def Client.ping_iter (c : Client) (service : Option String) (maxWait : Option ℚ)
    (maxCount : Option Nat) (maxInterval : Option ℚ) (start : ℚ)
    (stream : List TimedMsg) : Except MicroError (TransIter PingInfo) :=
  match get_internal_subject .ping service none c.apiPfx with
  | .error e => .error e
  | .ok subject =>
    .ok ⟨rmIterInit subject start maxWait maxCount maxInterval stream, pingDescriptor⟩

/-- Model of `Client.info_iter`: analogous with the INFO subject. -/
def Client.info_iter (c : Client) (service : Option String) (maxWait : Option ℚ)
    (maxCount : Option Nat) (maxInterval : Option ℚ) (start : ℚ)
    (stream : List TimedMsg) : Except MicroError (TransIter ServiceInfo) :=
  match get_internal_subject .info service none c.apiPfx with
  | .error e => .error e
  | .ok subject =>
    .ok ⟨rmIterInit subject start maxWait maxCount maxInterval stream, infoDescriptor⟩

/-- Model of `Client.stats_iter`: analogous with the STATS subject. -/
def Client.stats_iter (c : Client) (service : Option String) (maxWait : Option ℚ)
    (maxCount : Option Nat) (maxInterval : Option ℚ) (start : ℚ)
    (stream : List TimedMsg) : Except MicroError (TransIter ServiceStats) :=
  match get_internal_subject .stats service none c.apiPfx with
  | .error e => .error e
  | .ok subject =>
    .ok ⟨rmIterInit subject start maxWait maxCount maxInterval stream, statsDescriptor⟩

/-- Single-service client view (`class Service` of `client.py`): a client
together with a fixed service name. -/
structure Service where
  client : Client
  service : String
deriving DecidableEq

/-- Model of `Client.service(name)`. -/
def Client.service (c : Client) (service : String) : Service :=
  ⟨c, service⟩

/-- Model of `Service.ping`: delegate to `Client.ping` with the stored name. -/
def Service.ping (v : Service) (maxWait : Option ℚ) (maxCount : Option Nat)
    (maxInterval : Option ℚ) (start : ℚ) (stream : List TimedMsg) :
    Except MicroError (List BusCall × List PingInfo) :=
  v.client.ping (some v.service) maxWait maxCount maxInterval start stream

/-- Model of `Service.info`: delegate to `Client.info` with the stored name. -/
def Service.info (v : Service) (maxWait : Option ℚ) (maxCount : Option Nat)
    (maxInterval : Option ℚ) (start : ℚ) (stream : List TimedMsg) :
    Except MicroError (List BusCall × List ServiceInfo) :=
  v.client.info (some v.service) maxWait maxCount maxInterval start stream

/-- Model of `Service.stats`: delegate to `Client.stats` with the stored name. -/
def Service.stats (v : Service) (maxWait : Option ℚ) (maxCount : Option Nat)
    (maxInterval : Option ℚ) (start : ℚ) (stream : List TimedMsg) :
    Except MicroError (List BusCall × List ServiceStats) :=
  v.client.stats (some v.service) maxWait maxCount maxInterval start stream

/-- Model of `Service.ping_iter`: delegate to `Client.ping_iter` with the stored
name. -/
def Service.ping_iter (v : Service) (maxWait : Option ℚ) (maxCount : Option Nat)
    (maxInterval : Option ℚ) (start : ℚ) (stream : List TimedMsg) :
    Except MicroError (TransIter PingInfo) :=
  v.client.ping_iter (some v.service) maxWait maxCount maxInterval start stream

/-- Model of `Service.info_iter`: delegate to `Client.info_iter` with the stored
name. -/
def Service.info_iter (v : Service) (maxWait : Option ℚ) (maxCount : Option Nat)
    (maxInterval : Option ℚ) (start : ℚ) (stream : List TimedMsg) :
    Except MicroError (TransIter ServiceInfo) :=
  v.client.info_iter (some v.service) maxWait maxCount maxInterval start stream

/-- Model of `Service.stats_iter`: delegate to `Client.stats_iter` with the stored
name. -/
def Service.stats_iter (v : Service) (maxWait : Option ℚ) (maxCount : Option Nat)
    (maxInterval : Option ℚ) (start : ℚ) (stream : List TimedMsg) :
    Except MicroError (TransIter ServiceStats) :=
  v.client.stats_iter (some v.service) maxWait maxCount maxInterval start stream

/-- Single-instance client view (`class Instance` of `client.py`). -/
structure Instance where
  client : Client
  service : String
  id : String
deriving DecidableEq

/-- Model of `Client.instance(service, id)` (the Python method name is a reserved
word in Lean). -/
def Client.instanceOf (c : Client) (service : String) (id : String) : Instance :=
  ⟨c, service, id⟩

/-- Model of `Service.instance(id)`. -/
def Service.instanceOf (v : Service) (id : String) : Instance :=
  ⟨v.client, v.service, id⟩

/-- Model of `Instance.ping`: one direct `nc.request` (no error-header translation)
on the by-name-and-id PING subject, then parse the single reply as a
`PingInfo`.  The reply the bus returned is the last argument. -/
def Instance.ping (ins : Instance) (timeout : ℚ) (reply : Msg) :
    Except MicroError (List BusCall × PingInfo) :=
  match get_internal_subject .ping (some ins.service) (some ins.id)
      ins.client.apiPfx with
  | .error e => .error e
  | .ok subject =>
    match pingDescriptor reply with
    | .error e => .error e
    | .ok d => .ok ([.single subject timeout], d)

/-- Model of `Instance.info`: analogous with the INFO subject. -/
def Instance.info (ins : Instance) (timeout : ℚ) (reply : Msg) :
    Except MicroError (List BusCall × ServiceInfo) :=
  match get_internal_subject .info (some ins.service) (some ins.id)
      ins.client.apiPfx with
  | .error e => .error e
  | .ok subject =>
    match infoDescriptor reply with
    | .error e => .error e
    | .ok d => .ok ([.single subject timeout], d)

/-- Model of `Instance.stats`: analogous with the STATS subject. -/
def Instance.stats (ins : Instance) (timeout : ℚ) (reply : Msg) :
    Except MicroError (List BusCall × ServiceStats) :=
  match get_internal_subject .stats (some ins.service) (some ins.id)
      ins.client.apiPfx with
  | .error e => .error e
  | .ok subject =>
    match statsDescriptor reply with
    | .error e => .error e
    | .ok d => .ok ([.single subject timeout], d)

/-- Observable lifecycle events of the SDK layer: `stop` is the release
action of a scoped service, `reset` its counter reset.  Services are
identified by an abstract label. -/
inductive Event where
  | stop (sid : Nat) : Event
  | reset (sid : Nat) : Event
deriving DecidableEq

/-- State of `sdk.Context` relevant to service lifecycles: the callbacks
registered on the `AsyncExitStack` (in push order, one per entered
service) and the `services` list. -/
structure Context where
  exit_stack : List Nat
  services : List Nat
deriving DecidableEq

/-- Freshly constructed context (`Context.__init__`). -/
def Context.init : Context :=
  ⟨[], []⟩

/-- Model of `Context.add_service`: build the service, enter it on the exit stack
(registering its release, which the spec guarantees is `stop()`), append
it to `services`, and return. -/
def Context.add_service (c : Context) (sid : Nat) : Context :=
  ⟨c.exit_stack ++ [sid], c.services ++ [sid]⟩

/-- Modelled from the spec: unwinding of the exit stack
(`AsyncExitStack.__aexit__`, standard-library code outside the source
tree; spec §4.F and §9 "collects them and releases in reverse").  The
reversed stack is processed most-recent-first; every release runs even
when an earlier one raises, and whether any release raised is reported. -/
def unwindStack (fails : Nat → Bool) : List Nat → List Event × Bool
  | [] => ([], false)
  | sid :: older =>
    let tail := unwindStack fails older
    (Event.stop sid :: tail.1, fails sid || tail.2)

/-- Model of `Context.__aexit__`: release the exit stack (running `stop()` on each
entered service, most recently added first), and clear `services` in a
`finally` block, so the clear happens even when a release raised.  The
first component lists the release events in execution order, the second
reports whether an exception propagates, the third is the final state. -/
def Context.aexit (c : Context) (fails : Nat → Bool) :
    List Event × Bool × Context :=
  let unwound := unwindStack fails c.exit_stack.reverse
  (unwound.1, unwound.2, ⟨[], []⟩)

/-- Model of `Context.reset`: call `reset()` on every registered service in list
(addition) order; no other context state is touched. -/
def Context.reset (c : Context) : List Event × Context :=
  (c.services.map Event.reset, c)

/-! ### Helper lemmas -/

/-- Characterization of `Client.request` through header lookup: a truthy
`Nats-Service-Error-Code` value raises `ServiceError` when it parses as an
integer and `ValueError` otherwise; every other reply is returned
unchanged. -/
theorem request_spec (m : Msg) :
    Client.request m =
      (match m.header "Nats-Service-Error-Code" with
       | none => .ok m
       | some code =>
         if code = "" then .ok m
         else
           match pyInt code with
           | some k =>
             .error (.serviceError k ((m.header "Nats-Service-Error").getD ""))
           | none => .error .valueError) := by
  unfold Client.request Msg.header
  cases h : m.headers with
  | none => rfl
  | some hs =>
    cases hs with
    | nil => rfl
    | cons p rest => simp [dictGet, dictGetD]

/-- One result per successfully parsed reply: a successful fail-fast map
yields exactly as many results as inputs. -/
theorem exceptMap_ok_length {f : α → Except MicroError β} {xs : List α}
    {ys : List β} (h : exceptMap f xs = .ok ys) : ys.length = xs.length := by
  induction xs generalizing ys with
  | nil =>
    unfold exceptMap at h
    cases h
    rfl
  | cons x rest ih =>
    unfold exceptMap at h
    cases hfx : f x <;> rw [hfx] at h
    · exact absurd h (by simp)
    · cases hrest : exceptMap f rest <;> rw [hrest] at h
      · exact absurd h (by simp)
      · cases h
        simp [ih hrest]

/-! ### C1 -/

/-- Reply whose `Nats-Service-Error-Code` header is non-empty but not a
decimal integer. -/
def c1Msg : Msg :=
  ⟨"reply.inbox", "", .json (.obj []),
    some [("Nats-Service-Error-Code", "oops"), ("Nats-Service-Error", "bad")]⟩

/-- C1 counterexample: on a reply whose headers contain the non-empty
`Nats-Service-Error-Code` value `"oops"`, `Client.request` raises the
`int()` conversion failure (`ValueError`), not a `ServiceError` carrying
`{code, description}` as the claim states. -/
theorem claim_C1_counterexample :
    c1Msg.header "Nats-Service-Error-Code" = some "oops" ∧
    Client.request c1Msg = .error .valueError := by
  exact ⟨rfl, rfl⟩

/-- C1 (amended): for every reply message, `Client.request` raises
`ServiceError` with `code = int(header)` and `description` the value of
`Nats-Service-Error` (empty when absent) if and only if the headers carry
a non-empty `Nats-Service-Error-Code` value that parses as a decimal
integer; a non-empty value that does not parse raises a `ValueError`
instead; in all other cases the reply is returned unchanged. -/
theorem claim_C1 (m : Msg) :
    Client.request m =
      (match m.header "Nats-Service-Error-Code" with
       | none => .ok m
       | some code =>
         if code = "" then .ok m
         else
           match pyInt code with
           | some k =>
             .error (.serviceError k ((m.header "Nats-Service-Error").getD ""))
           | none => .error .valueError) :=
  request_spec m

/-! ### C2 -/

/-- C2: for every optional service name and every environment, `ping`
issues exactly one request-many on the PING control subject scoped by the
service (the unscoped subject when absent, the by-name subject when
given) and, when every received reply parses, returns exactly one
`PingInfo` per received reply, parsed from its JSON payload, in arrival
order; `info` and `stats` behave analogously with `ServiceInfo` and
`ServiceStats`. -/
theorem claim_C2 (c : Client) (s : Option String) (mw : Option ℚ)
    (mc : Option Nat) (mi : Option ℚ) (start : ℚ) (stream : List TimedMsg)
    (pins : List PingInfo) (iins : List ServiceInfo) (sins : List ServiceStats)
    (hp : exceptMap pingDescriptor
      (executorRun c.default_max_wait start mw mc mi stream) = .ok pins)
    (hi : exceptMap infoDescriptor
      (executorRun c.default_max_wait start mw mc mi stream) = .ok iins)
    (hs : exceptMap statsDescriptor
      (executorRun c.default_max_wait start mw mc mi stream) = .ok sins) :
    (c.ping s mw mc mi start stream =
      .ok ([.many (match s with
                   | none => c.apiPfx ++ "." ++ "PING"
                   | some name => c.apiPfx ++ "." ++ "PING" ++ "." ++ name)
        mw mc mi], pins) ∧
     pins.length = (executorRun c.default_max_wait start mw mc mi stream).length) ∧
    (c.info s mw mc mi start stream =
      .ok ([.many (match s with
                   | none => c.apiPfx ++ "." ++ "INFO"
                   | some name => c.apiPfx ++ "." ++ "INFO" ++ "." ++ name)
        mw mc mi], iins) ∧
     iins.length = (executorRun c.default_max_wait start mw mc mi stream).length) ∧
    (c.stats s mw mc mi start stream =
      .ok ([.many (match s with
                   | none => c.apiPfx ++ "." ++ "STATS"
                   | some name => c.apiPfx ++ "." ++ "STATS" ++ "." ++ name)
        mw mc mi], sins) ∧
     sins.length = (executorRun c.default_max_wait start mw mc mi stream).length) := by
  refine ⟨⟨?_, exceptMap_ok_length hp⟩, ⟨?_, exceptMap_ok_length hi⟩,
    ⟨?_, exceptMap_ok_length hs⟩⟩
  · cases s <;> simp [Client.ping, get_internal_subject, ServiceVerb.token, hp]
  · cases s <;> simp [Client.info, get_internal_subject, ServiceVerb.token, hi]
  · cases s <;> simp [Client.stats, get_internal_subject, ServiceVerb.token, hs]

/-- Control-plane reply whose JSON payload is a valid descriptor for all
three operations. -/
def descMsg : Msg :=
  ⟨"_INBOX.1", "", .json (.obj [("name", .str "service1"), ("id", .str "abc"),
    ("version", .str "0.0.1")]), none⟩

/-- Environment delivering the single valid reply at the send instant. -/
def demoStream : List TimedMsg := [⟨0, descMsg⟩]

/-- Parsed ping descriptor of `descMsg`. -/
def demoPing : PingInfo := ⟨"", "service1", "abc", "0.0.1", []⟩

/-- Parsed info descriptor of `descMsg`. -/
def demoInfo : ServiceInfo := ⟨"", "service1", "abc", "0.0.1", "", [], []⟩

/-- Parsed stats descriptor of `descMsg`. -/
def demoStats : ServiceStats := ⟨"", "service1", "abc", "0.0.1", [], "", []⟩

/-- Evaluation of the executor on the demo environment: the single reply
arrives at the send instant, well inside the one-second deadline. -/
theorem demoExecEval :
    executorRun (1 / 2 : ℚ) 0 (some 1) none none demoStream =
      [descMsg] := by
  norm_num [executorRun, demoStream, rmCollect, rmBound, rmReached,
    isNoResponders, descMsg, Option.getD]

/-- C2 witness: the default client pinging the unscoped subject with one
valid reply available satisfies the parse hypotheses and returns that
reply's descriptor. -/
theorem claim_C2_witness :
    exceptMap pingDescriptor
      (executorRun Client.initDefault.default_max_wait 0 (some 1) none none
        demoStream) = .ok [demoPing] ∧
    Client.initDefault.ping none (some 1) none none 0 demoStream =
      .ok ([.many ("$SRV" ++ "." ++ "PING") (some 1) none none], [demoPing]) := by
  have hexec : executorRun Client.initDefault.default_max_wait 0 (some 1) none
      none demoStream = [descMsg] := demoExecEval
  have hp : exceptMap pingDescriptor
      (executorRun Client.initDefault.default_max_wait 0 (some 1) none none
        demoStream) = .ok [demoPing] := by rw [hexec]; rfl
  have hi : exceptMap infoDescriptor
      (executorRun Client.initDefault.default_max_wait 0 (some 1) none none
        demoStream) = .ok [demoInfo] := by rw [hexec]; rfl
  have hs : exceptMap statsDescriptor
      (executorRun Client.initDefault.default_max_wait 0 (some 1) none none
        demoStream) = .ok [demoStats] := by rw [hexec]; rfl
  exact ⟨hp, (claim_C2 Client.initDefault none (some 1) none none 0 demoStream
    [demoPing] [demoInfo] [demoStats] hp hi hs).1.1⟩

/-! ### C3 -/

/-- Success of a fail-fast map is success of every element parse. -/
theorem exceptOk_exceptMap (f : α → Except MicroError β) (xs : List α) :
    exceptOk (exceptMap f xs) = xs.all (fun x => exceptOk (f x)) := by
  induction xs with
  | nil => rfl
  | cons x rest ih =>
    unfold exceptMap
    rw [List.all_cons, ← ih]
    cases hfx : f x with
    | error e => rfl
    | ok y => cases hrest : exceptMap f rest <;> rfl

/-- Reply whose payload is not valid JSON. -/
def c3Bad : Msg := ⟨"_INBOX.2", "", .invalid, none⟩

/-- Environment delivering one valid descriptor reply followed by one
malformed reply. -/
def c3Stream : List TimedMsg := [⟨0, descMsg⟩, ⟨0, c3Bad⟩]

/-- Evaluation of the executor on the mixed environment: both replies
arrive inside the deadline and are collected in arrival order. -/
theorem c3ExecEval :
    executorRun (1 / 2 : ℚ) 0 (some 1) none none c3Stream =
      [descMsg, c3Bad] := by
  norm_num [executorRun, c3Stream, rmCollect, rmBound, rmReached,
    isNoResponders, descMsg, c3Bad, Option.getD]

/-- C3 counterexample: with one valid reply and one malformed reply
received, `Client.ping` surfaces the parse error to the caller even
though a valid reply remains, contradicting the claim that a parse error
is raised only when zero valid replies remain. -/
theorem claim_C3_counterexample :
    pingDescriptor descMsg = .ok demoPing ∧
    executorRun (1 / 2 : ℚ) 0 (some 1) none none c3Stream =
      [descMsg, c3Bad] ∧
    Client.initDefault.ping none (some 1) none none 0 c3Stream =
      .error .jsonError := by
  refine ⟨rfl, c3ExecEval, ?_⟩
  show Client.ping ⟨1 / 2, apiPrefixDefault⟩ none (some 1) none none 0 c3Stream
    = .error .jsonError
  unfold Client.ping
  rw [show ((⟨1 / 2, apiPrefixDefault⟩ : Client).default_max_wait) = (1 / 2 : ℚ)
    from rfl, c3ExecEval]
  rfl

/-- C3 (amended): the three discovery operations use the same strict
parsing policy: each call succeeds exactly when every received reply
parses, so a single malformed reply surfaces the parse error to the
caller even when valid replies remain; the policy is identical across
`ping`, `info` and `stats`. -/
theorem claim_C3 (c : Client) (s : Option String) (mw : Option ℚ)
    (mc : Option Nat) (mi : Option ℚ) (start : ℚ) (stream : List TimedMsg) :
    (exceptOk (c.ping s mw mc mi start stream) =
      (executorRun c.default_max_wait start mw mc mi stream).all
        (fun m => exceptOk (pingDescriptor m))) ∧
    (exceptOk (c.info s mw mc mi start stream) =
      (executorRun c.default_max_wait start mw mc mi stream).all
        (fun m => exceptOk (infoDescriptor m))) ∧
    (exceptOk (c.stats s mw mc mi start stream) =
      (executorRun c.default_max_wait start mw mc mi stream).all
        (fun m => exceptOk (statsDescriptor m))) := by
  refine ⟨?_, ?_, ?_⟩
  · rw [← exceptOk_exceptMap]
    unfold Client.ping
    cases s <;>
      cases exceptMap pingDescriptor
        (executorRun c.default_max_wait start mw mc mi stream) <;> rfl
  · rw [← exceptOk_exceptMap]
    unfold Client.info
    cases s <;>
      cases exceptMap infoDescriptor
        (executorRun c.default_max_wait start mw mc mi stream) <;> rfl
  · rw [← exceptOk_exceptMap]
    unfold Client.stats
    cases s <;>
      cases exceptMap statsDescriptor
        (executorRun c.default_max_wait start mw mc mi stream) <;> rfl

/-! ### C4 -/

/-- C4: each per-instance operation issues exactly one single bus request
(not a request-many) on the by-name-and-id control subject with the given
ordinary timeout, and returns the single descriptor parsed from the one
reply. -/
theorem claim_C4 (c : Client) (s i : String) (t : ℚ) (m : Msg) :
    Instance.ping (c.instanceOf s i) t m =
      (pingDescriptor m).map (fun d =>
        ([BusCall.single (c.apiPfx ++ "." ++ "PING" ++ "." ++ s ++ "." ++ i) t],
          d)) ∧
    Instance.info (c.instanceOf s i) t m =
      (infoDescriptor m).map (fun d =>
        ([BusCall.single (c.apiPfx ++ "." ++ "INFO" ++ "." ++ s ++ "." ++ i) t],
          d)) ∧
    Instance.stats (c.instanceOf s i) t m =
      (statsDescriptor m).map (fun d =>
        ([BusCall.single (c.apiPfx ++ "." ++ "STATS" ++ "." ++ s ++ "." ++ i) t],
          d)) := by
  refine ⟨?_, ?_, ?_⟩
  · unfold Instance.ping Client.instanceOf
    cases hd : pingDescriptor m <;> rfl
  · unfold Instance.info Client.instanceOf
    cases hd : infoDescriptor m <;> rfl
  · unfold Instance.stats Client.instanceOf
    cases hd : statsDescriptor m <;> rfl

/-! ### C9 -/

/-- Failures of `EndpointInfo.from_response` are protocol errors. -/
theorem epInfo_err {j : JVal} {e : MicroError}
    (h : EndpointInfo.from_response j = .error e) : e = .protocolError := by
  unfold EndpointInfo.from_response at h
  split at h
  · exact absurd h (by simp)
  · cases h; rfl

/-- Failures of `PingInfo.from_response` are protocol errors. -/
theorem pingResp_err {j : JVal} {e : MicroError}
    (h : PingInfo.from_response j = .error e) : e = .protocolError := by
  unfold PingInfo.from_response at h
  split at h
  · exact absurd h (by simp)
  · cases h; rfl

/-- Failures of `ServiceInfo.from_response` are protocol errors. -/
theorem infoResp_err {j : JVal} {e : MicroError}
    (h : ServiceInfo.from_response j = .error e) : e = .protocolError := by
  unfold ServiceInfo.from_response at h
  split at h
  · exact absurd h (by simp)
  · cases h; rfl

/-- Failures of `ServiceStats.from_response` are protocol errors. -/
theorem statsResp_err {j : JVal} {e : MicroError}
    (h : ServiceStats.from_response j = .error e) : e = .protocolError := by
  unfold ServiceStats.from_response at h
  split at h
  · exact absurd h (by simp)
  · cases h; rfl

/-- Failures of the per-reply ping parse are never service errors. -/
theorem pingDescriptor_err {m : Msg} {e : MicroError}
    (h : pingDescriptor m = .error e) : e.isSvc = false := by
  unfold pingDescriptor at h
  split at h
  · rw [pingResp_err h]; rfl
  · cases h; rfl

/-- Failures of the per-reply info parse are never service errors. -/
theorem infoDescriptor_err {m : Msg} {e : MicroError}
    (h : infoDescriptor m = .error e) : e.isSvc = false := by
  unfold infoDescriptor at h
  split at h
  · rw [infoResp_err h]; rfl
  · cases h; rfl

/-- Failures of the per-reply stats parse are never service errors. -/
theorem statsDescriptor_err {m : Msg} {e : MicroError}
    (h : statsDescriptor m = .error e) : e.isSvc = false := by
  unfold statsDescriptor at h
  split at h
  · rw [statsResp_err h]; rfl
  · cases h; rfl

/-- C9: on a reply whose headers carry a non-empty
`Nats-Service-Error-Code` value, the per-instance operations parse the
reply body as a descriptor and never raise a `ServiceError`, whereas
`Client.request` raises on the same reply. -/
theorem claim_C9 (ins : Instance) (t : ℚ) (m : Msg) (code : String)
    (hc : m.header "Nats-Service-Error-Code" = some code) (hne : code ≠ "") :
    (∀ e, Instance.ping ins t m = .error e → e.isSvc = false) ∧
    (∀ e, Instance.info ins t m = .error e → e.isSvc = false) ∧
    (∀ e, Instance.stats ins t m = .error e → e.isSvc = false) ∧
    Instance.ping ins t m = (pingDescriptor m).map (fun d =>
      ([BusCall.single
          (ins.client.apiPfx ++ "." ++ "PING" ++ "." ++ ins.service ++ "." ++
            ins.id) t], d)) ∧
    (∃ e, Client.request m = .error e) := by
  refine ⟨?_, ?_, ?_, ?_, ?_⟩
  · intro e h
    unfold Instance.ping at h
    revert h
    cases hd : pingDescriptor m with
    | error e' =>
      intro h
      simp only [get_internal_subject] at h
      cases h
      exact pingDescriptor_err hd
    | ok d => intro h; exact absurd h (by simp [get_internal_subject])
  · intro e h
    unfold Instance.info at h
    revert h
    cases hd : infoDescriptor m with
    | error e' =>
      intro h
      simp only [get_internal_subject] at h
      cases h
      exact infoDescriptor_err hd
    | ok d => intro h; exact absurd h (by simp [get_internal_subject])
  · intro e h
    unfold Instance.stats at h
    revert h
    cases hd : statsDescriptor m with
    | error e' =>
      intro h
      simp only [get_internal_subject] at h
      cases h
      exact statsDescriptor_err hd
    | ok d => intro h; exact absurd h (by simp [get_internal_subject])
  · unfold Instance.ping
    cases hd : pingDescriptor m <;> rfl
  · cases hk : pyInt code with
    | some k =>
      refine ⟨.serviceError k ((m.header "Nats-Service-Error").getD ""), ?_⟩
      rw [request_spec, hc]
      simp [hne, hk]
    | none =>
      refine ⟨.valueError, ?_⟩
      rw [request_spec, hc]
      simp [hne, hk]

/-- Instance view used by the C9 witness. -/
def insDemo : Instance := Client.initDefault.instanceOf "service1" "abc"

/-- Reply carrying both a service-error header and a valid descriptor
body. -/
def errMsg : Msg :=
  ⟨"_INBOX.3", "", .json (.obj [("name", .str "service1"), ("id", .str "abc"),
    ("version", .str "0.0.1")]), some [("Nats-Service-Error-Code", "400")]⟩

/-- C9 witness: a concrete reply with error-code header `"400"`
instantiates the hypotheses and conclusions of the claim. -/
theorem claim_C9_witness :
    errMsg.header "Nats-Service-Error-Code" = some "400" ∧
    ((∀ e, Instance.ping insDemo 1 errMsg = .error e → e.isSvc = false) ∧
     (∀ e, Instance.info insDemo 1 errMsg = .error e → e.isSvc = false) ∧
     (∀ e, Instance.stats insDemo 1 errMsg = .error e → e.isSvc = false) ∧
     Instance.ping insDemo 1 errMsg = (pingDescriptor errMsg).map (fun d =>
       ([BusCall.single
           (insDemo.client.apiPfx ++ "." ++ "PING" ++ "." ++ insDemo.service ++
             "." ++ insDemo.id) 1], d)) ∧
     (∃ e, Client.request errMsg = .error e)) :=
  ⟨rfl, claim_C9 insDemo 1 errMsg "400" rfl (by decide)⟩

/-! ### C5 -/

/-- C5: the single-service view is precisely the client operation with the
service name curried, for all six discovery operations. -/
theorem claim_C5 (c : Client) (s : String) (mw : Option ℚ) (mc : Option Nat)
    (mi : Option ℚ) (start : ℚ) (stream : List TimedMsg) :
    (c.service s).ping mw mc mi start stream =
      c.ping (some s) mw mc mi start stream ∧
    (c.service s).info mw mc mi start stream =
      c.info (some s) mw mc mi start stream ∧
    (c.service s).stats mw mc mi start stream =
      c.stats (some s) mw mc mi start stream ∧
    (c.service s).ping_iter mw mc mi start stream =
      c.ping_iter (some s) mw mc mi start stream ∧
    (c.service s).info_iter mw mc mi start stream =
      c.info_iter (some s) mw mc mi start stream ∧
    (c.service s).stats_iter mw mc mi start stream =
      c.stats_iter (some s) mw mc mi start stream :=
  ⟨rfl, rfl, rfl, rfl, rfl, rfl⟩

/-! ### C6 -/

/-- State reached by a sequence of `add_service` calls: each call appends
its service to both the exit stack and the services list. -/
theorem foldl_add_service (sids : List Nat) (c : Context) :
    (sids.foldl Context.add_service c).exit_stack = c.exit_stack ++ sids ∧
    (sids.foldl Context.add_service c).services = c.services ++ sids := by
  induction sids generalizing c with
  | nil => simp
  | cons x rest ih =>
    rw [List.foldl_cons]
    rcases ih (c.add_service x) with ⟨h1, h2⟩
    constructor
    · rw [h1]; simp [Context.add_service]
    · rw [h2]; simp [Context.add_service]

/-- Unwinding the exit stack releases every registered callback, in
order, whether or not some of them raise. -/
theorem unwindStack_events (fails : Nat → Bool) (l : List Nat) :
    (unwindStack fails l).1 = l.map Event.stop := by
  induction l with
  | nil => rfl
  | cons x rest ih => simp [unwindStack, ih]

/-- C6: every service added through `add_service` is registered on the
exit stack in the returned context, and exiting the context — with or
without release failures along the way — runs `stop()` on each added
service in reverse order of addition. -/
theorem claim_C6 (sids : List Nat) (fails : Nat → Bool) (c : Context)
    (sid : Nat) :
    sid ∈ (c.add_service sid).exit_stack ∧
    ((sids.foldl Context.add_service Context.init).aexit fails).1 =
      (sids.reverse).map Event.stop := by
  constructor
  · simp [Context.add_service]
  · unfold Context.aexit
    rw [unwindStack_events, (foldl_add_service sids Context.init).1]
    simp [Context.init]

/-! ### C10 -/

/-- C10: `__aexit__` leaves the services list empty on every outcome of
the stack release, so a subsequent `reset()` iterates over no services
and changes nothing; `reset()` itself emits one reset per registered
service in order of addition and leaves the context state unchanged. -/
theorem claim_C10 (c : Context) (fails : Nat → Bool) :
    ((c.aexit fails).2.2).services = [] ∧
    Context.reset ((c.aexit fails).2.2) = ([], (c.aexit fails).2.2) ∧
    Context.reset c = (c.services.map Event.reset, c) :=
  ⟨rfl, rfl, rfl⟩

/-! ### C8 -/

/-- C8: the default-constructed client stores `default_max_wait = 0.5`;
the executor resolves an absent `max_wait` to the construction-time
default and leaves absent count and interval bounds unlimited; a `ping`
that omits every bound forwards the absent bounds unchanged to the
executor call. -/
theorem claim_C8 (dmw start : ℚ) (stream : List TimedMsg)
    (pins : List PingInfo)
    (hp : exceptMap pingDescriptor
      (executorRun Client.initDefault.default_max_wait start none none none
        stream) = .ok pins) :
    Client.initDefault.default_max_wait = 1 / 2 ∧
    (∀ (mc : Option Nat) (mi : Option ℚ) (stream2 : List TimedMsg),
      executorRun dmw start none mc mi stream2 =
        rmCollect (start + dmw) mi mc start 0 stream2) ∧
    Client.initDefault.ping none none none none start stream =
      .ok ([.many (apiPrefixDefault ++ "." ++ "PING") none none none], pins) := by
  refine ⟨rfl, fun mc mi stream2 => rfl, ?_⟩
  unfold Client.ping
  rw [hp]
  rfl

/-- Evaluation of the executor with every bound omitted: the reply at the
send instant is collected inside the default half-second window. -/
theorem c8ExecEval :
    executorRun Client.initDefault.default_max_wait 0 none none none
      demoStream = [descMsg] := by
  norm_num [executorRun, Client.initDefault, demoStream, rmCollect, rmBound,
    rmReached, isNoResponders, descMsg, Option.getD]

/-- C8 witness: the demo environment discharges the parse hypothesis and
the defaulted ping call returns its descriptor. -/
theorem claim_C8_witness :
    exceptMap pingDescriptor
      (executorRun Client.initDefault.default_max_wait 0 none none none
        demoStream) = .ok [demoPing] ∧
    Client.initDefault.default_max_wait = 1 / 2 ∧
    Client.initDefault.ping none none none none 0 demoStream =
      .ok ([.many (apiPrefixDefault ++ "." ++ "PING") none none none],
        [demoPing]) := by
  have hp : exceptMap pingDescriptor
      (executorRun Client.initDefault.default_max_wait 0 none none none
        demoStream) = .ok [demoPing] := by rw [c8ExecEval]; rfl
  have h := claim_C8 (1 / 2) 0 demoStream [demoPing] hp
  exact ⟨hp, h.1, h.2.2⟩

/-! ### C7 -/

/-- An iterator whose next step ends yields nothing for any fuel. -/
theorem rmDrain_of_next_none {it : RMIter} (h : it.next = none) :
    ∀ fuel, rmDrain fuel it = []
  | 0 => rfl
  | fuel + 1 => by unfold rmDrain; rw [h]

/-- Below the count bound the shared loop keeps waiting. -/
theorem rmContinue_succ_of_not_reached {len : Nat} {mc : Option Nat}
    (h : rmReached (len + 1) mc = false) : rmContinue (len + 1) mc = true := by
  cases mc with
  | none => rfl
  | some k =>
    unfold rmReached at h
    unfold rmContinue
    simp at h ⊢
    omega

/-- At the count bound the shared loop stops waiting. -/
theorem rmContinue_succ_of_reached {len : Nat} {mc : Option Nat}
    (h : rmReached (len + 1) mc = true) : rmContinue (len + 1) mc = false := by
  cases mc with
  | none => simp [rmReached] at h
  | some k =>
    unfold rmReached at h
    unfold rmContinue
    simp at h ⊢
    omega

/-- Shared termination algorithm: draining the lazy iterator yields
exactly the reply list the eager collection loop returns, from any
aligned intermediate state. -/
theorem rmDrain_eq_rmCollect (subj : String) (deadline : ℚ) (mi : Option ℚ)
    (mc : Option Nat) :
    ∀ (stream : List TimedMsg) (lastRx : ℚ) (len : Nat),
      rmContinue len mc = true →
      rmDrain stream.length ⟨subj, deadline, mi, mc, lastRx, len, stream, false⟩ =
        rmCollect deadline mi mc lastRx len stream := by
  intro stream
  induction stream with
  | nil => intro lastRx len hcont; rfl
  | cons t rest ih =>
    intro lastRx len hcont
    by_cases hb : rmBound deadline mi lastRx < t.arrival
    · simp [rmDrain, RMIter.next, rmCollect, hcont, hb]
    · by_cases hs : isNoResponders t.msg = true
      · simp [rmDrain, RMIter.next, rmCollect, hcont, hb, hs]
      · by_cases hr : rmReached (len + 1) mc = true
        · have hstop : rmContinue (len + 1) mc = false :=
            rmContinue_succ_of_reached hr
          have hnext : (RMIter.mk subj deadline mi mc t.arrival (len + 1) rest
              false).next = none := by
            unfold RMIter.next
            simp [hstop]
          simp [rmDrain, RMIter.next, rmCollect, hcont, hb, hs, hr,
            rmDrain_of_next_none hnext]
        · have hgo : rmContinue (len + 1) mc = true :=
            rmContinue_succ_of_not_reached (by simp at hr; exact hr)
          have ihr := ih t.arrival (len + 1) hgo
          simp [rmDrain, RMIter.next, rmCollect, hcont, hb, hs, hr, ihr]

/-- Draining the transformed iterator is parsing the drained replies. -/
theorem rmDrainT_eq (parse : Msg → Except MicroError α) :
    ∀ (fuel : Nat) (it : RMIter),
      rmDrainT parse fuel it = exceptMap parse (rmDrain fuel it) := by
  intro fuel
  induction fuel with
  | zero => intro it; rfl
  | succ f ih =>
    intro it
    cases hn : it.next with
    | none => simp only [rmDrainT, rmDrain, hn, exceptMap]
    | some p =>
      obtain ⟨m, it2⟩ := p
      simp only [rmDrainT, rmDrain, hn, ih, exceptMap]

/-- Lazy form drained to exhaustion equals the eager executor run under
the shared package default wait. -/
theorem drainT_executor (parse : Msg → Except MicroError α) (subj : String)
    (start : ℚ) (mw : Option ℚ) (mc : Option Nat) (mi : Option ℚ)
    (stream : List TimedMsg) :
    rmDrainT parse stream.length (rmIterInit subj start mw mc mi stream) =
      exceptMap parse (executorRun rmDefaultMaxWait start mw mc mi stream) := by
  rw [rmDrainT_eq]
  unfold rmIterInit executorRun
  rw [rmDrain_eq_rmCollect subj (start + mw.getD rmDefaultMaxWait) mi mc stream
    start 0 rfl]

/-- Client constructed with a non-default wait, `Client(nc, 1)`. -/
def c7Client : Client := ⟨1, apiPrefixDefault⟩

/-- Environment delivering one valid reply at `t = 7/10`: inside the
one-second window the eager path uses, outside the half-second window the
lazy path uses. -/
def c7Stream : List TimedMsg := [⟨7 / 10, descMsg⟩]

/-- Evaluation of the eager executor with the client-level default wait of
one second: the reply at `7/10` is collected. -/
theorem c7ExecEval :
    executorRun (1 : ℚ) 0 none none none c7Stream = [descMsg] := by
  norm_num [executorRun, c7Stream, rmCollect, rmBound, rmReached,
    isNoResponders, descMsg, Option.getD]

/-- First step of the lazy iterator with every bound omitted: its deadline
is the package default `1/2`, so the reply at `7/10` arrives past the wait
bound and iteration ends with nothing yielded. -/
theorem c7IterNext :
    (rmIterInit (apiPrefixDefault ++ "." ++ "PING") 0 none none none
      c7Stream).next = none := by
  unfold rmIterInit RMIter.next
  norm_num [rmContinue, rmBound, c7Stream, Option.getD, rmDefaultMaxWait]

/-- C7 counterexample: for the client constructed with
`default_max_wait = 1` and every bound omitted, the eager `ping` returns
the one descriptor while consuming the lazy `ping_iter` to exhaustion
yields the empty sequence — the two forms resolve the omitted `max_wait`
differently, so the claimed equality fails. -/
theorem claim_C7_counterexample :
    (c7Client.ping none none none none 0 c7Stream).map (fun r => r.2) =
      .ok [demoPing] ∧
    (c7Client.ping_iter none none none none 0 c7Stream).bind
      (fun t => t.drain c7Stream.length) = .ok [] := by
  constructor
  · show (Client.ping ⟨1, apiPrefixDefault⟩ none none none none 0
      c7Stream).map (fun r => r.2) = .ok [demoPing]
    unfold Client.ping
    rw [show ((⟨1, apiPrefixDefault⟩ : Client).default_max_wait) = (1 : ℚ)
      from rfl, c7ExecEval]
    rfl
  · show (Client.ping_iter ⟨1, apiPrefixDefault⟩ none none none none 0
      c7Stream).bind (fun t => t.drain c7Stream.length) = .ok []
    unfold Client.ping_iter TransIter.drain
    simp only [get_internal_subject, Except.bind]
    show rmDrainT pingDescriptor 1
      (rmIterInit (apiPrefixDefault ++ "." ++ "PING") 0 none none none
        c7Stream) = .ok []
    simp only [rmDrainT, c7IterNext]

/-- C7 (amended): the eager and lazy forms share the termination
algorithm, and consuming the lazy form to exhaustion yields exactly the
sequence the eager form returns whenever `max_wait` is passed explicitly,
or the client's construction-time `default_max_wait` equals the
request-many package default of half a second (as for the
default-constructed client); when `max_wait` is omitted the eager form
resolves it through the executor built with the client's default while
the lazy form uses the package default, and the results can differ. -/
theorem claim_C7 (c : Client) (s : Option String) (mw : Option ℚ)
    (mc : Option Nat) (mi : Option ℚ) (start : ℚ) (stream : List TimedMsg)
    (h : mw ≠ none ∨ c.default_max_wait = rmDefaultMaxWait) :
    ((c.ping_iter s mw mc mi start stream).bind
        (fun t => t.drain stream.length) =
      (c.ping s mw mc mi start stream).map (fun r => r.2)) ∧
    ((c.info_iter s mw mc mi start stream).bind
        (fun t => t.drain stream.length) =
      (c.info s mw mc mi start stream).map (fun r => r.2)) ∧
    ((c.stats_iter s mw mc mi start stream).bind
        (fun t => t.drain stream.length) =
      (c.stats s mw mc mi start stream).map (fun r => r.2)) := by
  have hd : executorRun rmDefaultMaxWait start mw mc mi stream =
      executorRun c.default_max_wait start mw mc mi stream := by
    cases h with
    | inl hne =>
      cases mw with
      | none => exact absurd rfl hne
      | some w => rfl
    | inr he => rw [he]
  refine ⟨?_, ?_, ?_⟩
  · unfold Client.ping_iter Client.ping TransIter.drain
    cases s <;>
      · simp only [get_internal_subject, Except.bind]
        rw [drainT_executor, hd]
        cases exceptMap pingDescriptor
          (executorRun c.default_max_wait start mw mc mi stream) <;> rfl
  · unfold Client.info_iter Client.info TransIter.drain
    cases s <;>
      · simp only [get_internal_subject, Except.bind]
        rw [drainT_executor, hd]
        cases exceptMap infoDescriptor
          (executorRun c.default_max_wait start mw mc mi stream) <;> rfl
  · unfold Client.stats_iter Client.stats TransIter.drain
    cases s <;>
      · simp only [get_internal_subject, Except.bind]
        rw [drainT_executor, hd]
        cases exceptMap statsDescriptor
          (executorRun c.default_max_wait start mw mc mi stream) <;> rfl

/-- C7 witness: with `max_wait` passed explicitly the hypothesis holds for
any client, and on the demo environment both forms produce the same
single-descriptor sequence. -/
theorem claim_C7_witness :
    ((some (1 : ℚ) : Option ℚ) ≠ none ∨
      Client.initDefault.default_max_wait = rmDefaultMaxWait) ∧
    (Client.initDefault.ping_iter none (some 1) none none 0
        demoStream).bind (fun t => t.drain demoStream.length) =
      (Client.initDefault.ping none (some 1) none none 0 demoStream).map
        (fun r => r.2) :=
  ⟨Or.inl (by simp),
    (claim_C7 Client.initDefault none (some 1) none none 0 demoStream
      (Or.inr rfl)).1⟩

end NatsMicro
